import Mathlib

/-
Shallow embedding of the two retrieval pipelines of this repository:

  * src/services/lc/tools/search_esg_tool.py   (class SearchESG, methods _run and _arun)
  * src/services/standalone/search_academic_db.py (async function search)

External collaborators (embedding provider, vector index, metadata store) are
modelled as oracle function parameters: the embedding of each pipeline takes the
collaborator responses as inputs and computes the pure orchestration that the
Python code performs on them.  Fallible Python operations (strptime on a missing
or malformed date string, fromtimestamp on an out-of-range timestamp) are
modelled with Except, an uncaught exception being an Except.error value that
propagates to the caller.  Numeric metadata values coming from the vector index
(page_number, date) are carried by Python as floats holding numeric values; they
are embedded as rationals (page numbers) and whole-second integers (timestamps),
which is exact for every value the claims touch.
-/

/- ---------------------------------------------------------------- -/
/- Python datetime: strptime, strftime, fromtimestamp               -/
/- ---------------------------------------------------------------- -/

/-- A Python datetime.datetime value (naive, as produced by strptime and
fromtimestamp in the two pipelines). -/
structure PyDateTime where
  year : Nat
  month : Nat
  day : Nat
  hour : Nat
  minute : Nat
  second : Nat
  deriving DecidableEq

def digitVal (c : Char) : Nat := c.toNat - 48

/-- CPython strptime %Y: exactly four digits. -/
def parse4 : List Char → Option (Nat × List Char)
  | a :: b :: c :: d :: rest =>
    if a.isDigit && b.isDigit && c.isDigit && d.isDigit then
      some (1000 * digitVal a + 100 * digitVal b + 10 * digitVal c + digitVal d, rest)
    else none
  | _ => none

/-- CPython strptime numeric directives %m, %d, %H, %M, %S: one or two digits,
greedily two when the two-digit value lies in [lo2, hi2], else one digit with
value at least lo1.  (Because the directive is always followed by a non-digit
literal in the format used here, greedy matching agrees with the regex
backtracking CPython performs.) -/
def parse2or1 (lo2 hi2 lo1 : Nat) : List Char → Option (Nat × List Char)
  | a :: b :: rest =>
    if a.isDigit && b.isDigit then
      let v := 10 * digitVal a + digitVal b
      if lo2 ≤ v ∧ v ≤ hi2 then some (v, rest)
      else if lo1 ≤ digitVal a then some (digitVal a, b :: rest)
      else none
    else if a.isDigit then
      (if lo1 ≤ digitVal a then some (digitVal a, b :: rest) else none)
    else none
  | [a] => if a.isDigit ∧ lo1 ≤ digitVal a then some (digitVal a, ([] : List Char)) else none
  | [] => none

def expectChar (c : Char) : List Char → Option (List Char)
  | a :: rest => if a = c then some rest else none
  | [] => none

/-- The regex phase of strptime(s, "%Y-%m-%dT%H:%M:%SZ"): returns the six
numeric fields when the whole string matches the format. -/
def parseDateFields (s : String) : Option (Nat × Nat × Nat × Nat × Nat × Nat) :=
  (parse4 s.data).bind fun p1 =>
  (expectChar '-' p1.2).bind fun r2 =>
  (parse2or1 1 12 1 r2).bind fun p2 =>
  (expectChar '-' p2.2).bind fun r4 =>
  (parse2or1 1 31 1 r4).bind fun p3 =>
  (expectChar 'T' p3.2).bind fun r6 =>
  (parse2or1 0 23 0 r6).bind fun p4 =>
  (expectChar ':' p4.2).bind fun r8 =>
  (parse2or1 0 59 0 r8).bind fun p5 =>
  (expectChar ':' p5.2).bind fun r10 =>
  (parse2or1 0 61 0 r10).bind fun p6 =>
  (expectChar 'Z' p6.2).bind fun r12 =>
  if r12.isEmpty then some (p1.1, p2.1, p3.1, p4.1, p5.1, p6.1) else none

def isLeapYear (y : Nat) : Bool := (y % 4 == 0 && y % 100 != 0) || y % 400 == 0

def daysInMonth (y m : Nat) : Nat :=
  if m = 2 then (if isLeapYear y then 29 else 28)
  else if m = 4 ∨ m = 6 ∨ m = 9 ∨ m = 11 then 30
  else 31

/-- The datetime-construction phase of datetime.strptime: range validation the
datetime constructor performs on the parsed fields. -/
def mkPyDateTime (y mo d h mi se : Nat) : Except String PyDateTime :=
  if y < 1 then Except.error "ValueError: year 0 is out of range"
  else if d > daysInMonth y mo then Except.error "ValueError: day is out of range for month"
  else if se > 59 then Except.error "ValueError: second must be in 0..59"
  else Except.ok ⟨y, mo, d, h, mi, se⟩

/-- datetime.datetime.strptime(s, "%Y-%m-%dT%H:%M:%SZ"). -/
def strptimeIso (s : String) : Except String PyDateTime :=
  match parseDateFields s with
  | none => Except.error "ValueError: time data does not match format %Y-%m-%dT%H:%M:%SZ"
  | some (y, mo, d, h, mi, se) => mkPyDateTime y mo d h mi se

/-- record.get("publication_date") may be None (field absent or null); strptime
then raises a TypeError.  Both failure modes are Except.error values. -/
def parsePubDate : Option String → Except String PyDateTime
  | none => Except.error "TypeError: strptime() argument 1 must be str, not None"
  | some s => strptimeIso s

def padZeros (w : Nat) (n : Nat) : String :=
  let s := toString n
  ⟨List.replicate (w - s.length) '0'⟩ ++ s

/-- strftime("%Y-%m-%d"): day-level formatting. -/
def strftimeYMD (dt : PyDateTime) : String :=
  padZeros 4 dt.year ++ "-" ++ padZeros 2 dt.month ++ "-" ++ padZeros 2 dt.day

/-- strftime("%Y-%m"): month-level formatting. -/
def strftimeYM (dt : PyDateTime) : String :=
  padZeros 4 dt.year ++ "-" ++ padZeros 2 dt.month

/-- days-since-epoch to proleptic Gregorian civil date (year, month, day). -/
def civilFromDays (z : ℤ) : ℤ × ℤ × ℤ :=
  let z2 := z + 719468
  let era := z2.fdiv 146097
  let doe := z2 - era * 146097
  let yoe := (doe - doe.fdiv 1460 + doe.fdiv 36524 - doe.fdiv 146096).fdiv 365
  let y := yoe + era * 400
  let doy := doe - (365 * yoe + yoe.fdiv 4 - yoe.fdiv 100)
  let mp := (5 * doy + 2).fdiv 153
  let d := doy - (153 * mp + 2).fdiv 5 + 1
  let m := if mp < 10 then mp + 3 else mp - 9
  (if m ≤ 2 then y + 1 else y, m, d)

/-- datetime.datetime.fromtimestamp(t) at whole-second resolution, with the
local timezone taken to be UTC; out-of-range years raise, as in Python.
Irreducible so that elaboration does not unfold the calendar arithmetic on
symbolic arguments; the kernel still evaluates it on concrete inputs. -/
@[irreducible] def fromtimestampUtc (t : ℤ) : Except String PyDateTime :=
  let days := t.fdiv 86400
  let sod := t.fmod 86400
  match civilFromDays days with
  | (y, m, d) =>
    if y < 1 ∨ 9999 < y then Except.error "ValueError: year is out of range"
    else Except.ok ⟨y.toNat, m.toNat, d.toNat, (sod.fdiv 3600).toNat,
      ((sod.fmod 3600).fdiv 60).toNat, (sod.fmod 60).toNat⟩

/-- Python int() applied to a numeric value: truncation toward zero. -/
def pyIntTrunc (q : ℚ) : ℤ := q.num.tdiv (q.den : ℤ)

/- ---------------------------------------------------------------- -/
/- Python str()/repr() of the returned list of dicts                -/
/- ---------------------------------------------------------------- -/

def hexDigit (n : Nat) : Char := if n < 10 then Char.ofNat (48 + n) else Char.ofNat (87 + n)

def byteHex (n : Nat) : String := ⟨[hexDigit (n / 16), hexDigit (n % 16)]⟩

def pyReprChar (quote : Char) (c : Char) : List Char :=
  if c = '\\' then ['\\', '\\']
  else if c = quote then ['\\', quote]
  else if c = '\n' then ['\\', 'n']
  else if c = '\r' then ['\\', 'r']
  else if c = '\t' then ['\\', 't']
  else if c.toNat < 32 ∨ c.toNat = 127 then '\\' :: 'x' :: (byteHex c.toNat).data
  else [c]

/-- repr of a Python str over the printable range: single quotes unless the
string holds a single quote and no double quote. -/
def pyReprString (s : String) : String :=
  let sq := Char.ofNat 39
  let dq := Char.ofNat 34
  let quote := if s.data.contains sq && !(s.data.contains dq) then dq else sq
  ⟨quote :: ((s.data.map (pyReprChar quote)).flatten ++ [quote])⟩

/- ---------------------------------------------------------------- -/
/- ESG pipeline: SearchESG._run / SearchESG._arun                   -/
/- ---------------------------------------------------------------- -/

/-- One Pinecone match of the ESG namespace, with the metadata fields the tool
reads: metadata["rec_id"], metadata["page_number"], metadata["text"]. -/
structure ESGMatch where
  rec_id : String
  page_number : ℚ
  text : String
  deriving DecidableEq

/-- One Xata record of the "ESG" table, with the selected columns; the column
values may be absent (record.get is used with defaults / may return None). -/
structure ESGRecord where
  id : String
  company_short_name : Option String
  report_title : Option String
  publication_date : Option String
  deriving DecidableEq

/-- One element of docs_list: {"content": ..., "source": ...}. -/
structure DocEntry where
  content : String
  source : String
  deriving DecidableEq

/-- records_dict = {record["id"]: record for record in records}, looked up with
records_dict.get(key): a Python dict comprehension keeps the last record with a
given key. -/
def lookupEsgRecord (records : List ESGRecord) (key : String) : Option ESGRecord :=
  records.reverse.find? (fun r => r.id == key)

/-- The source_entry string built for one match joined to its record (the body
of the `if record:` branch): may raise through strptime. -/
def esgSource (record : ESGRecord) (m : ESGMatch) : Except String String :=
  (parsePubDate record.publication_date).map (fun date =>
    let formatted_date := strftimeYMD date
    let company_short_name := record.company_short_name.getD ""
    let report_title := record.report_title.getD ""
    company_short_name ++ ". " ++ report_title ++ ". " ++ formatted_date ++
      ". (P" ++ toString (pyIntTrunc m.page_number) ++ ")")

/-- The join-and-format loop over docs["matches"], building docs_list;
an exception raised while formatting one match propagates. -/
def joinEsg (records : List ESGRecord) : List ESGMatch → Except String (List DocEntry)
  | [] => Except.ok []
  | m :: ms =>
    match lookupEsgRecord records m.rec_id with
    | none => joinEsg records ms
    | some record =>
      match esgSource record m with
      | Except.error e => Except.error e
      | Except.ok src =>
        match joinEsg records ms with
        | Except.error e => Except.error e
        | Except.ok rest => Except.ok (⟨m.text, src⟩ :: rest)

/-- The Pinecone metadata filter of the ESG query. -/
structure PineconeIdFilter where
  field : String
  values : List String
  deriving DecidableEq

/-- filter = None; if doc_ids: filter = \x7b"rec_id": \x7b"$in": doc_ids\x7d\x7d.
A Python empty list is falsy, so both None and [] leave the filter None. -/
def esgFilterOf (doc_ids : Option (List String)) : Option PineconeIdFilter :=
  match doc_ids with
  | none => none
  | some ids => if ids.isEmpty then none else some ⟨"rec_id", ids⟩

/-- str() of one docs_list element (a dict of two str fields). -/
def pyStrDocEntry (e : DocEntry) : String :=
  "\x7b\x27content\x27: " ++ pyReprString e.content ++ ", \x27source\x27: " ++
    pyReprString e.source ++ "\x7d"

/-- str(docs_list), the string SearchESG._run returns. -/
def pyStrDocsList (l : List DocEntry) : String :=
  "[" ++ String.intercalate ", " (l.map pyStrDocEntry) ++ "]"

/-- SearchESG._run.  The collaborators are oracles: embed is the embedding
provider, indexQuery the Pinecone query (given the parts of the request the
tool computes), xataQuery the bulk metadata lookup (given the id list).
list(id_set) iterates a Python set in an unspecified order; the model passes
one canonical order, which is sound because every claim quantifies over the
store response. -/
def searchEsgRun (embed : String → List ℚ)
    (indexQuery : List ℚ → Option PineconeIdFilter → Option ℤ → List ESGMatch)
    (xataQuery : List String → List ESGRecord)
    (query : String) (top_k : Option ℤ) (doc_ids : Option (List String)) :
    Except String String :=
  let query_vector := embed query
  let fil := esgFilterOf doc_ids
  let docsMatches := indexQuery query_vector fil top_k
  let id_list := (docsMatches.map (fun d => d.rec_id)).dedup
  let records := xataQuery id_list
  (joinEsg records docsMatches).map pyStrDocsList

/-- SearchESG._arun: the asynchronous entry point, whose body is a verbatim
copy of the synchronous one (awaits suspend only at the collaborator calls). -/
def searchEsgArun (embed : String → List ℚ)
    (indexQuery : List ℚ → Option PineconeIdFilter → Option ℤ → List ESGMatch)
    (xataQuery : List String → List ESGRecord)
    (query : String) (top_k : Option ℤ) (doc_ids : Option (List String)) :
    Except String String :=
  let query_vector := embed query
  let fil := esgFilterOf doc_ids
  let docsMatches := indexQuery query_vector fil top_k
  let id_list := (docsMatches.map (fun d => d.rec_id)).dedup
  let records := xataQuery id_list
  (joinEsg records docsMatches).map pyStrDocsList

/- ---------------------------------------------------------------- -/
/- Academic pipeline: search_academic_db.search                     -/
/- ---------------------------------------------------------------- -/

/-- s.rpartition("_")[0]: the part of s before the last underscore, and the
empty string when s holds no underscore. -/
def doiKey (s : String) : String :=
  match s.data.reverse.dropWhile (fun c => c != '_') with
  | [] => ""
  | _ :: rest => ⟨rest.reverse⟩

/-- One Pinecone match of the academic namespace: the match id and the metadata
fields read by the loop (metadata["date"], metadata["journal"],
metadata["text"]). -/
structure AcadMatch where
  id : String
  date : ℤ
  journal : String
  text : String
  deriving DecidableEq

/-- One Supabase record of the "journals" table with the selected columns. -/
structure AcadRecord where
  doi : String
  title : String
  authors : List String
  deriving DecidableEq

/-- records_dict = {record["doi"]: record for record in records}. -/
def lookupAcadRecord (records : List AcadRecord) (key : String) : Option AcadRecord :=
  records.reverse.find? (fun r => r.doi == key)

/-- The source_entry string built for one academic match joined to its record:
may raise through fromtimestamp. -/
def acadSource (record : AcadRecord) (m : AcadMatch) : Except String String :=
  (fromtimestampUtc m.date).map (fun date =>
    let formatted_date := strftimeYM date
    let authors := String.intercalate ", " record.authors
    let url := "https://doi.org/" ++ doiKey m.id
    "[" ++ record.title ++ ". " ++ m.journal ++ ". " ++ authors ++ ". " ++
      formatted_date ++ ".](" ++ url ++ ")")

/-- The join-and-format loop of the academic pipeline; an exception raised
while formatting one match propagates. -/
def joinAcad (records : List AcadRecord) : List AcadMatch → Except String (List DocEntry)
  | [] => Except.ok []
  | m :: ms =>
    match lookupAcadRecord records (doiKey m.id) with
    | none => joinAcad records ms
    | some record =>
      match acadSource record m with
      | Except.error e => Except.error e
      | Except.ok src =>
        match joinAcad records ms with
        | Except.error e => Except.error e
        | Except.ok rest => Except.ok (⟨m.text, src⟩ :: rest)

/-- search_academic_db.search, with collaborators as oracles (no identifier
filter exists in this pipeline); returns docs_list itself, not a str. -/
def searchAcademic (embed : String → List ℚ)
    (indexQuery : List ℚ → Option ℤ → List AcadMatch)
    (supabaseQuery : List String → List AcadRecord)
    (query : String) (top_k : Option ℤ) : Except String (List DocEntry) :=
  let query_vector := embed query
  let docsMatches := indexQuery query_vector top_k
  let doi_list := (docsMatches.map (fun d => doiKey d.id)).dedup
  let records := supabaseQuery doi_list
  joinAcad records docsMatches

/- ---------------------------------------------------------------- -/
/- Helper lemmas                                                    -/
/- ---------------------------------------------------------------- -/

theorem lookupEsgRecord_isSome_iff (records : List ESGRecord) (key : String) :
    (lookupEsgRecord records key).isSome = true ↔ ∃ r ∈ records, r.id = key := by
  simp [lookupEsgRecord]

theorem lookupEsgRecord_mem (records : List ESGRecord) (key : String) (r : ESGRecord)
    (h : lookupEsgRecord records key = some r) : r ∈ records ∧ r.id = key := by
  simp only [lookupEsgRecord] at h
  refine ⟨List.mem_reverse.mp (List.mem_of_find?_eq_some h), ?_⟩
  simpa using List.find?_some h

theorem lookupAcadRecord_isSome_iff (records : List AcadRecord) (key : String) :
    (lookupAcadRecord records key).isSome = true ↔ ∃ r ∈ records, r.doi = key := by
  simp [lookupAcadRecord]

theorem lookupAcadRecord_mem (records : List AcadRecord) (key : String) (r : AcadRecord)
    (h : lookupAcadRecord records key = some r) : r ∈ records ∧ r.doi = key := by
  simp only [lookupAcadRecord] at h
  refine ⟨List.mem_reverse.mp (List.mem_of_find?_eq_some h), ?_⟩
  simpa using List.find?_some h

theorem esgSource_of_ok (record : ESGRecord) (m : ESGMatch) (d : PyDateTime)
    (hd : parsePubDate record.publication_date = Except.ok d) :
    esgSource record m = Except.ok ((record.company_short_name.getD "") ++ ". " ++
      (record.report_title.getD "") ++ ". " ++ strftimeYMD d ++ ". (P" ++
      toString (pyIntTrunc m.page_number) ++ ")") := by
  simp [esgSource, hd, Except.map]

theorem esgSource_of_error (record : ESGRecord) (m : ESGMatch) (e : String)
    (he : parsePubDate record.publication_date = Except.error e) :
    esgSource record m = Except.error e := by
  simp [esgSource, he, Except.map]

theorem acadSource_of_ok (record : AcadRecord) (m : AcadMatch) (d : PyDateTime)
    (hd : fromtimestampUtc m.date = Except.ok d) :
    acadSource record m = Except.ok ("[" ++ record.title ++ ". " ++ m.journal ++ ". " ++
      String.intercalate ", " record.authors ++ ". " ++ strftimeYM d ++ ".](" ++
      ("https://doi.org/" ++ doiKey m.id) ++ ")") := by
  simp [acadSource, hd, Except.map]

theorem acadSource_of_error (record : AcadRecord) (m : AcadMatch) (e : String)
    (he : fromtimestampUtc m.date = Except.error e) :
    acadSource record m = Except.error e := by
  simp [acadSource, he, Except.map]

theorem joinEsg_ok_content (records : List ESGRecord) :
    ∀ (ms : List ESGMatch) (out : List DocEntry), joinEsg records ms = Except.ok out →
      out.map (fun e => e.content) =
        (ms.filter (fun m => (lookupEsgRecord records m.rec_id).isSome)).map (fun m => m.text) := by
  intro ms
  induction ms with
  | nil =>
    intro out h
    simp only [joinEsg] at h
    cases h
    simp
  | cons m ms ih =>
    intro out h
    cases hl : lookupEsgRecord records m.rec_id with
    | none =>
      simp only [joinEsg, hl] at h
      simp [List.filter_cons, hl, ih out h]
    | some record =>
      simp only [joinEsg, hl] at h
      cases hs : esgSource record m with
      | error e => rw [hs] at h; exact Except.noConfusion h
      | ok src =>
        rw [hs] at h
        cases hj : joinEsg records ms with
        | error e => rw [hj] at h; exact Except.noConfusion h
        | ok rest =>
          rw [hj] at h
          simp only [Except.ok.injEq] at h
          subst h
          simp [List.filter_cons, hl, ih rest hj]

theorem joinEsg_nil_records : ∀ (ms : List ESGMatch), joinEsg [] ms = Except.ok [] := by
  intro ms
  induction ms with
  | nil => rfl
  | cons m ms ih =>
    have hl : lookupEsgRecord [] m.rec_id = none := rfl
    simp only [joinEsg, hl]
    exact ih

theorem joinAcad_ok_content (records : List AcadRecord) :
    ∀ (ms : List AcadMatch) (out : List DocEntry), joinAcad records ms = Except.ok out →
      out.map (fun e => e.content) =
        (ms.filter (fun m => (lookupAcadRecord records (doiKey m.id)).isSome)).map
          (fun m => m.text) := by
  intro ms
  induction ms with
  | nil =>
    intro out h
    simp only [joinAcad] at h
    cases h
    simp
  | cons m ms ih =>
    intro out h
    cases hl : lookupAcadRecord records (doiKey m.id) with
    | none =>
      simp only [joinAcad, hl] at h
      simp [List.filter_cons, hl, ih out h]
    | some record =>
      simp only [joinAcad, hl] at h
      cases hs : acadSource record m with
      | error e => rw [hs] at h; exact Except.noConfusion h
      | ok src =>
        rw [hs] at h
        cases hj : joinAcad records ms with
        | error e => rw [hj] at h; exact Except.noConfusion h
        | ok rest =>
          rw [hj] at h
          simp only [Except.ok.injEq] at h
          subst h
          simp [List.filter_cons, hl, ih rest hj]

theorem joinAcad_nil_records : ∀ (ms : List AcadMatch), joinAcad [] ms = Except.ok [] := by
  intro ms
  induction ms with
  | nil => rfl
  | cons m ms ih =>
    have hl : lookupAcadRecord [] (doiKey m.id) = none := rfl
    simp only [joinAcad, hl]
    exact ih

/-- Helper for C9: if every earlier match with a present record formats without
raising, and some match has a present record whose formatting raises e, the
whole join evaluates to that error. -/
theorem joinEsg_error_of_first (records : List ESGRecord) (e : String) :
    ∀ (pre : List ESGMatch) (m0 : ESGMatch) (post : List ESGMatch) (r0 : ESGRecord),
      (∀ m2 ∈ pre, ∀ r2, lookupEsgRecord records m2.rec_id = some r2 →
        (esgSource r2 m2).isOk = true) →
      lookupEsgRecord records m0.rec_id = some r0 →
      esgSource r0 m0 = Except.error e →
      joinEsg records (pre ++ m0 :: post) = Except.error e := by
  intro pre
  induction pre with
  | nil =>
    intro m0 post r0 _ hl hs
    simp only [List.nil_append, joinEsg, hl, hs]
  | cons m pre ih =>
    intro m0 post r0 hpre hl hs
    have tail := ih m0 post r0 (fun m2 hm2 => hpre m2 (List.mem_cons_of_mem _ hm2)) hl hs
    cases hl2 : lookupEsgRecord records m.rec_id with
    | none =>
      simp only [List.cons_append, joinEsg, hl2]
      exact tail
    | some r2 =>
      have hok := hpre m (List.mem_cons_self _ _) r2 hl2
      cases hsrc : esgSource r2 m with
      | error e2 =>
        rw [hsrc] at hok
        simp [Except.isOk, Except.toBool] at hok
      | ok s =>
        simp only [List.cons_append, joinEsg, hl2, hsrc, List.append_eq, tail]

/-- The filter contract of the vector index: every returned match satisfies the
set-membership filter on the rec_id metadata field when one is supplied. -/
def indexHonorsFilter (f : Option PineconeIdFilter) (ms : List ESGMatch) : Prop :=
  ∀ m ∈ ms, ∀ fl, f = some fl → m.rec_id ∈ fl.values

/- ---------------------------------------------------------------- -/
/- Claims                                                           -/
/- ---------------------------------------------------------------- -/

/-- C1: in both pipelines the join emits at most one entry per vector match,
every emitted entry stems from a match whose correlation key has a present
record in the fetched mapping, a match without a record is absent without an
error being raised, and an empty record list yields the empty output list. -/
theorem join_entries_bounded_and_present
    (recsE : List ESGRecord) (msE : List ESGMatch)
    (recsA : List AcadRecord) (msA : List AcadMatch) :
    (∀ out, joinEsg recsE msE = Except.ok out →
      out.length ≤ msE.length ∧
      ∀ en ∈ out, ∃ m ∈ msE,
        (lookupEsgRecord recsE m.rec_id).isSome = true ∧ en.content = m.text) ∧
    joinEsg [] msE = Except.ok [] ∧
    (∀ out, joinAcad recsA msA = Except.ok out →
      out.length ≤ msA.length ∧
      ∀ en ∈ out, ∃ m ∈ msA,
        (lookupAcadRecord recsA (doiKey m.id)).isSome = true ∧ en.content = m.text) ∧
    joinAcad [] msA = Except.ok [] := by
  refine ⟨?_, joinEsg_nil_records msE, ?_, joinAcad_nil_records msA⟩
  · intro out h
    have hc := joinEsg_ok_content recsE msE out h
    constructor
    · have hlen := congrArg List.length hc
      simp only [List.length_map] at hlen
      rw [hlen]
      exact List.length_filter_le _ _
    · intro en hen
      have hmem : en.content ∈ out.map (fun e => e.content) := List.mem_map_of_mem _ hen
      rw [hc] at hmem
      obtain ⟨m, hm, hmc⟩ := List.mem_map.mp hmem
      have hf := List.mem_filter.mp hm
      exact ⟨m, hf.1, hf.2, hmc.symm⟩
  · intro out h
    have hc := joinAcad_ok_content recsA msA out h
    constructor
    · have hlen := congrArg List.length hc
      simp only [List.length_map] at hlen
      rw [hlen]
      exact List.length_filter_le _ _
    · intro en hen
      have hmem : en.content ∈ out.map (fun e => e.content) := List.mem_map_of_mem _ hen
      rw [hc] at hmem
      obtain ⟨m, hm, hmc⟩ := List.mem_map.mp hmem
      have hf := List.mem_filter.mp hm
      exact ⟨m, hf.1, hf.2, hmc.symm⟩

theorem join_entries_bounded_and_present_witness :
    ([] : List DocEntry).length ≤ [(⟨"a", (1 : ℚ), "t"⟩ : ESGMatch)].length ∧
    joinAcad [] [(⟨"b", 0, "J", "u"⟩ : AcadMatch)] = Except.ok [] :=
  ⟨(((join_entries_bounded_and_present [] [⟨"a", (1 : ℚ), "t"⟩] [] [⟨"b", 0, "J", "u"⟩]).1) []
      ((join_entries_bounded_and_present [] [⟨"a", (1 : ℚ), "t"⟩] [] [⟨"b", 0, "J", "u"⟩]).2.1)).1,
    (join_entries_bounded_and_present [] [⟨"a", (1 : ℚ), "t"⟩] [] [⟨"b", 0, "J", "u"⟩]).2.2.2⟩

/-- C2: on the fixture of the spec, the ESG join of match rec_id abc123 with
page number 3.0 against the record keyed abc123 (ACME, Impact Report,
2023-05-04T00:00:00Z) emits the source string ACME. Impact Report. 2023-05-04.
(P3). -/
theorem esg_join_fixture_source :
    joinEsg [⟨"abc123", some "ACME", some "Impact Report", some "2023-05-04T00:00:00Z"⟩]
      [⟨"abc123", (3 : ℚ), "passage"⟩] =
      Except.ok [⟨"passage", "ACME. Impact Report. 2023-05-04. (P3)"⟩] := rfl

/-- C3: the correlation key is the verbatim rec_id metadata field in the ESG
pipeline and the part of the match identifier before the last underscore in the
academic pipeline; a match with identifier 10.1000/xyz_0 correlates to the
record keyed 10.1000/xyz. -/
theorem join_keys_per_pipeline :
    (∀ (records : List ESGRecord) (m : ESGMatch),
      (lookupEsgRecord records m.rec_id).isSome = true ↔ ∃ r ∈ records, r.id = m.rec_id) ∧
    (∀ (records : List AcadRecord) (m : AcadMatch),
      (lookupAcadRecord records (doiKey m.id)).isSome = true ↔
        ∃ r ∈ records, r.doi = doiKey m.id) ∧
    doiKey "10.1000/xyz_0" = "10.1000/xyz" ∧
    (∀ (r : AcadRecord), r.doi = "10.1000/xyz" →
      lookupAcadRecord [r] (doiKey "10.1000/xyz_0") = some r) := by
  refine ⟨fun records m => lookupEsgRecord_isSome_iff records m.rec_id,
    fun records m => lookupAcadRecord_isSome_iff records (doiKey m.id), rfl, ?_⟩
  intro r hr
  have hk : doiKey "10.1000/xyz_0" = "10.1000/xyz" := rfl
  rw [hk]
  have hp : (fun x : AcadRecord => x.doi == "10.1000/xyz") r = true := by simp [hr]
  simp [lookupAcadRecord, List.find?_cons_of_pos _ hp, hr]

theorem join_keys_per_pipeline_witness :
    lookupAcadRecord [⟨"10.1000/xyz", "T", ["A"]⟩] (doiKey "10.1000/xyz_0") =
      some ⟨"10.1000/xyz", "T", ["A"]⟩ :=
  join_keys_per_pipeline.2.2.2 ⟨"10.1000/xyz", "T", ["A"]⟩ rfl

/-- C4: a non-empty doc_ids allow-list makes the ESG tool send the rec_id
set-membership filter equal to that list, and if the index honors its filter
contract no returned match carries a rec_id outside the list. -/
theorem esg_filter_restricts
    (embed : String → List ℚ)
    (indexQuery : List ℚ → Option PineconeIdFilter → Option ℤ → List ESGMatch)
    (query : String) (top_k : Option ℤ) (doc_ids : List String)
    (h : doc_ids ≠ [])
    (hhon : indexHonorsFilter (esgFilterOf (some doc_ids))
      (indexQuery (embed query) (esgFilterOf (some doc_ids)) top_k)) :
    esgFilterOf (some doc_ids) = some ⟨"rec_id", doc_ids⟩ ∧
    ∀ m ∈ indexQuery (embed query) (esgFilterOf (some doc_ids)) top_k,
      m.rec_id ∈ doc_ids := by
  have hne : doc_ids.isEmpty = false := by
    cases doc_ids with
    | nil => exact absurd rfl h
    | cons a l => rfl
  have hf : esgFilterOf (some doc_ids) = some ⟨"rec_id", doc_ids⟩ := by
    simp [esgFilterOf, hne]
  exact ⟨hf, fun m hm => hhon m hm ⟨"rec_id", doc_ids⟩ hf⟩

theorem esg_filter_restricts_witness :
    esgFilterOf (some ["a"]) = some ⟨"rec_id", ["a"]⟩ ∧
    ∀ m ∈ (fun (_ : List ℚ) (_ : Option PineconeIdFilter) (_ : Option ℤ) =>
        [(⟨"a", (1 : ℚ), "t"⟩ : ESGMatch)]) ([] : List ℚ) (esgFilterOf (some ["a"]))
        (some 16), m.rec_id ∈ ["a"] :=
  esg_filter_restricts (fun _ => []) (fun _ _ _ => [⟨"a", (1 : ℚ), "t"⟩]) "q" (some 16)
    ["a"] (by simp)
    (by
      intro m hm fl hfl
      simp only [List.mem_singleton] at hm
      subst hm
      simp [esgFilterOf] at hfl
      subst hfl
      simp)

/-- C5: an absent allow-list (None) and an empty allow-list ([]) both leave the
vector-search request unfiltered (filter is None). -/
theorem esg_no_filter_when_absent_or_empty :
    esgFilterOf none = none ∧ esgFilterOf (some []) = none := ⟨rfl, rfl⟩

/-- C6: the synchronous and the asynchronous entry point of the ESG tool
compute the same string for every query, top_k, doc_ids and every fixed set of
collaborator responses. -/
theorem esg_run_arun_equal
    (embed : String → List ℚ)
    (indexQuery : List ℚ → Option PineconeIdFilter → Option ℤ → List ESGMatch)
    (xataQuery : List String → List ESGRecord)
    (query : String) (top_k : Option ℤ) (doc_ids : Option (List String)) :
    searchEsgRun embed indexQuery xataQuery query top_k doc_ids =
      searchEsgArun embed indexQuery xataQuery query top_k doc_ids := rfl

/-- C7: in both pipelines a successful join emits the entries of the matches
having a present record, in the original match order, without deduplication or
further truncation: the emitted contents are exactly the texts of the
record-bearing matches in order. -/
theorem join_preserves_order
    (recsE : List ESGRecord) (msE : List ESGMatch)
    (recsA : List AcadRecord) (msA : List AcadMatch) :
    (∀ out, joinEsg recsE msE = Except.ok out →
      out.map (fun e => e.content) =
        (msE.filter (fun m => (lookupEsgRecord recsE m.rec_id).isSome)).map
          (fun m => m.text)) ∧
    (∀ out, joinAcad recsA msA = Except.ok out →
      out.map (fun e => e.content) =
        (msA.filter (fun m => (lookupAcadRecord recsA (doiKey m.id)).isSome)).map
          (fun m => m.text)) :=
  ⟨fun out => joinEsg_ok_content recsE msE out, fun out => joinAcad_ok_content recsA msA out⟩

theorem join_preserves_order_witness :
    ([⟨"t", "C. T. 2023-05-04. (P3)"⟩] : List DocEntry).map (fun e => e.content) =
      (([⟨"b", (1 : ℚ), "u"⟩, ⟨"a", (3 : ℚ), "t"⟩] : List ESGMatch).filter
        (fun m => (lookupEsgRecord
          [⟨"a", some "C", some "T", some "2023-05-04T00:00:00Z"⟩] m.rec_id).isSome)).map
        (fun m => m.text) :=
  (join_preserves_order [⟨"a", some "C", some "T", some "2023-05-04T00:00:00Z"⟩]
    [⟨"b", (1 : ℚ), "u"⟩, ⟨"a", (3 : ℚ), "t"⟩] [] []).1
    [⟨"t", "C. T. 2023-05-04. (P3)"⟩] rfl

/-- C8: whenever the date value parses, the ESG citation is the fixed template
company. title. day-level date (%Y-%m-%d). (P page-as-int), and the academic
citation is the fixed template [title. journal. authors joined by comma-space.
month-level date (%Y-%m).](https://doi.org/ followed by the correlation key). -/
theorem citation_templates
    (rE : ESGRecord) (mE : ESGMatch) (dE : PyDateTime)
    (hE : parsePubDate rE.publication_date = Except.ok dE)
    (rA : AcadRecord) (mA : AcadMatch) (dA : PyDateTime)
    (hA : fromtimestampUtc mA.date = Except.ok dA) :
    esgSource rE mE = Except.ok ((rE.company_short_name.getD "") ++ ". " ++
      (rE.report_title.getD "") ++ ". " ++ strftimeYMD dE ++ ". (P" ++
      toString (pyIntTrunc mE.page_number) ++ ")") ∧
    acadSource rA mA = Except.ok ("[" ++ rA.title ++ ". " ++ mA.journal ++ ". " ++
      String.intercalate ", " rA.authors ++ ". " ++ strftimeYM dA ++ ".](" ++
      ("https://doi.org/" ++ doiKey mA.id) ++ ")") :=
  ⟨esgSource_of_ok rE mE dE hE, acadSource_of_ok rA mA dA hA⟩

theorem citation_templates_witness :
    esgSource ⟨"a", some "C", some "T", some "2021-12-31T23:59:59Z"⟩ ⟨"a", (7 : ℚ), "t"⟩ =
      Except.ok "C. T. 2021-12-31. (P7)" ∧
    acadSource ⟨"10.1/x", "T", ["A. Smith", "B. Jones"]⟩ ⟨"10.1/x_2", 1684108930, "J", "t"⟩ =
      Except.ok "[T. J. A. Smith, B. Jones. 2023-05.](https://doi.org/10.1/x)" := by
  have h := citation_templates
    ⟨"a", some "C", some "T", some "2021-12-31T23:59:59Z"⟩ ⟨"a", (7 : ℚ), "t"⟩
    ⟨2021, 12, 31, 23, 59, 59⟩ rfl
    ⟨"10.1/x", "T", ["A. Smith", "B. Jones"]⟩ ⟨"10.1/x_2", 1684108930, "J", "t"⟩
    ⟨2023, 5, 15, 0, 2, 10⟩ (by with_unfolding_all rfl)
  exact ⟨h.1.trans (by rfl), h.2.trans (by rfl)⟩

/-- C9: a present record whose publication_date is missing or does not parse
with %Y-%m-%dT%H:%M:%SZ makes the ESG run abort with the underlying parsing
error, unmodified, provided every earlier match with a present record formats
without raising. -/
theorem esg_unparsable_date_aborts
    (embed : String → List ℚ)
    (indexQuery : List ℚ → Option PineconeIdFilter → Option ℤ → List ESGMatch)
    (xataQuery : List String → List ESGRecord)
    (query : String) (top_k : Option ℤ) (doc_ids : Option (List String))
    (pre post : List ESGMatch) (m0 : ESGMatch) (r0 : ESGRecord) (e : String)
    (hms : indexQuery (embed query) (esgFilterOf doc_ids) top_k = pre ++ m0 :: post)
    (hpre : ∀ m2 ∈ pre, ∀ r2,
      lookupEsgRecord
        (xataQuery (((pre ++ m0 :: post).map (fun d => d.rec_id)).dedup)) m2.rec_id =
        some r2 → (esgSource r2 m2).isOk = true)
    (hl : lookupEsgRecord
      (xataQuery (((pre ++ m0 :: post).map (fun d => d.rec_id)).dedup)) m0.rec_id = some r0)
    (hparse : parsePubDate r0.publication_date = Except.error e) :
    searchEsgRun embed indexQuery xataQuery query top_k doc_ids = Except.error e := by
  have hsrc : esgSource r0 m0 = Except.error e := esgSource_of_error r0 m0 e hparse
  have hjoin := joinEsg_error_of_first
    (xataQuery (((pre ++ m0 :: post).map (fun d => d.rec_id)).dedup)) e pre m0 post r0
    hpre hl hsrc
  simp only [searchEsgRun, hms, hjoin, Except.map]

theorem esg_unparsable_date_aborts_witness :
    searchEsgRun (fun _ => []) (fun _ _ _ => [⟨"x", (1 : ℚ), "t"⟩])
      (fun _ => [⟨"x", some "C", some "T", some "nonsense"⟩]) "q" (some 16) none =
      Except.error "ValueError: time data does not match format %Y-%m-%dT%H:%M:%SZ" :=
  esg_unparsable_date_aborts (fun _ => []) (fun _ _ _ => [⟨"x", (1 : ℚ), "t"⟩])
    (fun _ => [⟨"x", some "C", some "T", some "nonsense"⟩]) "q" (some 16) none
    [] [] ⟨"x", (1 : ℚ), "t"⟩ ⟨"x", some "C", some "T", some "nonsense"⟩
    "ValueError: time data does not match format %Y-%m-%dT%H:%M:%SZ"
    rfl (by simp) rfl rfl

/-- C10: an academic match whose identifier holds no underscore has the empty
string as correlation key, can only join to a record keyed by the empty string,
and is silently dropped when no such record exists. -/
theorem acad_no_underscore_empty_key (m : AcadMatch) (records : List AcadRecord)
    (h : ('_' ∈ m.id.data) → False) :
    doiKey m.id = "" ∧
    (∀ r, lookupAcadRecord records (doiKey m.id) = some r → r.doi = "") ∧
    ((¬ ∃ r ∈ records, r.doi = "") → joinAcad records [m] = Except.ok []) := by
  have hk : doiKey m.id = "" := by
    have hd : m.id.data.reverse.dropWhile (fun c => c != '_') = [] := by
      rw [List.dropWhile_eq_nil_iff]
      intro x hx
      have hmem : x ∈ m.id.data := List.mem_reverse.mp hx
      simp only [bne_iff_ne, ne_eq]
      intro he
      exact h (he ▸ hmem)
    simp [doiKey, hd]
  refine ⟨hk, ?_, ?_⟩
  · intro r hr
    have hd := (lookupAcadRecord_mem records (doiKey m.id) r hr).2
    rw [hk] at hd
    exact hd
  · intro hnone
    have hl : lookupAcadRecord records (doiKey m.id) = none := by
      cases hcase : lookupAcadRecord records (doiKey m.id) with
      | none => rfl
      | some r =>
        obtain ⟨hmem, hdoi⟩ := lookupAcadRecord_mem records (doiKey m.id) r hcase
        rw [hk] at hdoi
        exact absurd ⟨r, hmem, hdoi⟩ hnone
    simp only [joinAcad, hl]

theorem acad_no_underscore_empty_key_witness :
    doiKey "nounderscore" = "" ∧
    joinAcad [⟨"x", "T", ["A"]⟩] [⟨"nounderscore", 0, "J", "t"⟩] = Except.ok [] := by
  have h := acad_no_underscore_empty_key ⟨"nounderscore", 0, "J", "t"⟩ [⟨"x", "T", ["A"]⟩]
    (by decide)
  exact ⟨h.1, h.2.2 (by simp)⟩
